import Mathlib

/-!
Verification of the ortelius plotting library core against its specification.

The development shallowly embeds the three subsystems the claims are about:

* `src/buffer.rs`: the `pad_size` alignment helper, the `default_growth`
  policy and the growable `GpuBuffer` (its `new`, `grow` and `extend`
  operations).  Machine integers (`u64`/`usize`, both 64-bit here) are
  modelled as `Nat` with an explicit `% 2 ^ 64` wherever the Rust release
  semantics wraps.  Rust `&`/`!` on `u64` become `&&&` with the complement
  mask written out as `2 ^ 64 - 1 - mask`.
* `src/layer.rs`: `Line` and the per-line draw-call vertex count issued by
  `LineRenderer::render`.  `f32` payload values are modelled as `ℚ`; only
  their count and placement matter to the claims.
* `src/layout.rs`: `Interval`, `Bounds`, `Padding`, `PlotInstanceLayout`
  and the viewport operations (`is_on_inner`, `convert_to_data_position`,
  `drag`, `zoom`).  `f64` coordinates are modelled as `ℚ` (exact real
  arithmetic; the spec's floating-point-tolerance hedges become exact
  equalities).  Note `ℚ` division by zero yields 0 where IEEE would give
  an infinity or NaN; none of the settled claims depends on that corner.

Fallible operations (Rust `assert!` failures, slice-index panics inside the
buffer-fill closures, and wgpu validation errors on out-of-range or
misaligned `copy_buffer_to_buffer` regions) are modelled by `Option`:
`none` means the operation aborts.
-/

namespace Ortelius

/-- The u64 modulus: Rust release-mode arithmetic wraps at `2 ^ 64`. -/
def U64 : ℕ := 2 ^ 64

/-- Constant `wgpu::COPY_BUFFER_ALIGNMENT` (= 4): the alignment unit every buffer
copy size and offset must respect. -/
def COPY_BUFFER_ALIGNMENT : ℕ := 4

/-- Function `pad_size` from `src/buffer.rs`:
`((size + align_mask) & !align_mask).max(COPY_BUFFER_ALIGNMENT)` with
`align_mask = COPY_BUFFER_ALIGNMENT - 1`.  The u64 addition wraps; `!` is
the 64-bit complement. -/
def pad_size (size : ℕ) : ℕ :=
  let align_mask := COPY_BUFFER_ALIGNMENT - 1
  Max.max (((size + align_mask) % U64) &&& (U64 - 1 - align_mask)) COPY_BUFFER_ALIGNMENT

/-- Function `default_growth` from `src/buffer.rs`:
`(required_size + MEGABYTE - 1) & !MEGABYTE` with `MEGABYTE = 1024 * 1024`.
(The mask really is `!MEGABYTE`, i.e. clearing only bit 20, in the source.)
The current-capacity and is-initial arguments are ignored, as in the
source. -/
def default_growth (_current : ℕ) (required_size : ℕ) (_is_initial : Bool) : ℕ :=
  let MEGABYTE : ℕ := 1024 * 1024
  ((required_size + MEGABYTE - 1) % U64) &&& (U64 - 1 - MEGABYTE)

/-- Bits 2..63 mask: `v &&& (2 ^ 64 - 4)` clears the two low bits of a
64-bit value, i.e. rounds `v` down to a multiple of 4. -/
theorem land_high_mask (v : ℕ) (hv : v < 2 ^ 64) :
    v &&& (2 ^ 64 - 4) = v / 4 * 4 := by
  have hls : v / 4 * 4 = v >>> 2 <<< 2 := by
    rw [Nat.shiftRight_eq_div_pow, Nat.shiftLeft_eq]
  rw [hls]
  apply Nat.eq_of_testBit_eq
  intro i
  rw [Nat.testBit_land, Nat.testBit_shiftLeft, Nat.testBit_shiftRight]
  rcases Nat.lt_or_ge i 64 with h64 | h64
  · rcases Nat.lt_or_ge i 2 with h2 | h2
    · have hm : Nat.testBit (2 ^ 64 - 4) i = false := by
        interval_cases i <;> decide
      have hd : decide (i ≥ 2) = false := by
        simp only [decide_eq_false_iff_not]
        omega
      rw [hm, hd, Bool.and_false, Bool.false_and]
    · have hm : Nat.testBit (2 ^ 64 - 4) i = true := by
        interval_cases i <;> decide
      have hi : 2 + (i - 2) = i := by omega
      have hd : decide (i ≥ 2) = true := decide_eq_true h2
      rw [hm, hi, Bool.and_true, hd, Bool.true_and]
  · have hpow : (2 : ℕ) ^ 64 ≤ 2 ^ i := Nat.pow_le_pow_right (by norm_num) h64
    have hm : Nat.testBit (2 ^ 64 - 4) i = false :=
      Nat.testBit_lt_two_pow (lt_of_lt_of_le (by norm_num) hpow)
    have hv' : Nat.testBit v i = false :=
      Nat.testBit_lt_two_pow (lt_of_lt_of_le hv hpow)
    have hi : 2 + (i - 2) = i := by omega
    rw [hm, hi, hv']
    simp

/-- Arithmetic characterisation of `pad_size`. -/
theorem pad_size_eq (s : ℕ) :
    pad_size s = Max.max ((s + 3) % 2 ^ 64 / 4 * 4) 4 := by
  show Max.max (((s + (4 - 1)) % 2 ^ 64) &&& (2 ^ 64 - 1 - (4 - 1))) 4
      = Max.max ((s + 3) % 2 ^ 64 / 4 * 4) 4
  have h1 : (2 : ℕ) ^ 64 - 1 - (4 - 1) = 2 ^ 64 - 4 := by norm_num
  have h2 : (4 : ℕ) - 1 = 3 := by norm_num
  rw [h1, h2, land_high_mask _ (Nat.mod_lt _ (by norm_num))]

theorem pad_size_le (s : ℕ) : pad_size s ≤ 2 ^ 64 - 4 := by
  rw [pad_size_eq, Nat.max_def]
  have h := Nat.mod_lt (s + 3) (show 0 < 2 ^ 64 by norm_num)
  split <;> omega

theorem pad_size_dvd (s : ℕ) : COPY_BUFFER_ALIGNMENT ∣ pad_size s := by
  rw [pad_size_eq]
  unfold COPY_BUFFER_ALIGNMENT
  rcases max_choice ((s + 3) % 2 ^ 64 / 4 * 4) 4 with h | h <;> rw [h]
  exact dvd_mul_left 4 _

theorem pad_size_ge_align (s : ℕ) : COPY_BUFFER_ALIGNMENT ≤ pad_size s := by
  rw [pad_size_eq]
  unfold COPY_BUFFER_ALIGNMENT
  exact le_max_right _ _

theorem pad_size_idem (s : ℕ) : pad_size (pad_size s) = pad_size s := by
  have h4 := pad_size_dvd s
  have hge := pad_size_ge_align s
  have hle := pad_size_le s
  unfold COPY_BUFFER_ALIGNMENT at h4 hge
  rw [pad_size_eq (pad_size s), Nat.max_def]
  split <;> omega

theorem pad_size_ge (s : ℕ) (h : s ≤ 2 ^ 64 - 4) : s ≤ pad_size s := by
  rw [pad_size_eq, Nat.max_def]
  have hm : (s + 3) % 2 ^ 64 = s + 3 := Nat.mod_eq_of_lt (by omega)
  split <;> omega

/-- C7: for every u64 byte size `s`, `pad_size` is idempotent, returns a
multiple of the alignment constant, and returns at least one alignment
unit; the claimed `pad_size s ≥ s` additionally needs `s ≤ 2 ^ 64 - 4`
(no u64 overflow in `size + align_mask`), which is the amendment forced by
the overflow counterexample. -/
theorem pad_size_properties (s : ℕ) (_hs : s < U64) :
    pad_size (pad_size s) = pad_size s
      ∧ COPY_BUFFER_ALIGNMENT ∣ pad_size s
      ∧ COPY_BUFFER_ALIGNMENT ≤ pad_size s
      ∧ (s ≤ U64 - COPY_BUFFER_ALIGNMENT → s ≤ pad_size s) := by
  refine ⟨pad_size_idem s, pad_size_dvd s, pad_size_ge_align s, fun h => pad_size_ge s ?_⟩
  unfold U64 COPY_BUFFER_ALIGNMENT at h
  exact h

/-- C7 witness: the amended properties evaluated at the concrete size 5. -/
theorem pad_size_properties_witness :
    (5 : ℕ) < U64
      ∧ (pad_size (pad_size 5) = pad_size 5
          ∧ COPY_BUFFER_ALIGNMENT ∣ pad_size 5
          ∧ COPY_BUFFER_ALIGNMENT ≤ pad_size 5
          ∧ (5 ≤ U64 - COPY_BUFFER_ALIGNMENT → 5 ≤ pad_size 5)) :=
  ⟨by decide, pad_size_properties 5 (by decide)⟩

/-- C7 counterexample: at `s = 2 ^ 64 - 1` (a valid u64 size) the u64
addition `size + align_mask` wraps, so `pad_size` returns 4, which is not
`≥ s`: the claim's unrestricted `pad_size s ≥ s` is false. -/
theorem pad_size_overflow_counterexample :
    pad_size (2 ^ 64 - 1) = 4 ∧ ¬ (2 ^ 64 - 1 ≤ pad_size (2 ^ 64 - 1)) := by
  constructor
  · decide
  · decide

/-- C1: the default growth policy does **not** round the required size up
to the next megabyte multiple.  The source computes
`(required_size + MEGABYTE - 1) & !MEGABYTE`, which clears only bit 20
instead of the low 20 bits (`!(MEGABYTE - 1)`).  At
`required_size = 1048576` the least multiple of 1048576 that is
`≥ required_size` is 1048576 itself, but the code returns 1048575. -/
theorem default_growth_megabyte_bug :
    default_growth 0 1048576 false = 1048575
      ∧ default_growth 0 1048576 false ≠ 1048576
      ∧ ¬ (1048576 ∣ default_growth 0 1048576 false) := by
  refine ⟨by decide, by decide, by decide⟩

/-- The `GpuBuffer<T>` state from `src/buffer.rs`: the `length` field (a
usize element count), the `capacity` field (u64 bytes), and the logical
contents of the backing `inner` buffer, one `ℚ` per stored element.  The
`usage` flags are only consulted by the assertions in `new` and are passed
to that model directly; the stored `growth` function is always
`default_growth`, as in the source. -/
structure GpuBuffer where
  length : ℕ
  capacity : ℕ
  data : List ℚ

/-- Method `GpuBuffer::len`. -/
def GpuBuffer.len (self : GpuBuffer) : ℕ := self.length

/-- Method `GpuBuffer::size`: `(self.length * size_of::<T>()) as u64`, computed in
64-bit usize arithmetic.  `sz` is `size_of::<T>()`. -/
def GpuBuffer.size (self : GpuBuffer) (sz : ℕ) : ℕ := (self.length * sz) % U64

/-- Method `GpuBuffer::new`.  `none` models a fatal failure: the missing-usage
assertions, or an out-of-range fill (the source casts the whole mapped
`capacity`-byte range to `&mut [T]` — a panic unless `sz` divides
`capacity` — and slices the first `length` elements — a panic unless
`length ≤ capacity / sz`).  `initData` is the data the `fill` closure
writes into those `length` slots. -/
def GpuBuffer.new (sz : ℕ) (copy_src copy_dst : Bool) (length : ℕ) (initData : List ℚ) :
    Option GpuBuffer :=
  if copy_src && copy_dst then
    let capacity := pad_size (default_growth 0 ((length * sz) % U64) true)
    if initData.length = length ∧ sz ∣ capacity ∧ length ≤ capacity / sz then
      some { length := length, capacity := capacity, data := initData }
    else none
  else none

/-- Method `GpuBuffer::grow`.  Returns the updated buffer plus the byte count of
the encoded old-to-new copy.  `none` models the two capacity assertions
failing, or wgpu rejecting the encoded `copy_buffer_to_buffer` (its size
must be a multiple of `COPY_BUFFER_ALIGNMENT` and must fit in both
buffers). -/
def GpuBuffer.grow (self : GpuBuffer) (sz required_size : ℕ) : Option (GpuBuffer × ℕ) :=
  let new_capacity := pad_size (default_growth self.capacity required_size false)
  if new_capacity ≥ required_size ∧ new_capacity > self.capacity
      ∧ COPY_BUFFER_ALIGNMENT ∣ self.size sz
      ∧ self.size sz ≤ self.capacity ∧ self.size sz ≤ new_capacity then
    some ({ self with capacity := new_capacity }, self.size sz)
  else none

/-- The unit of GPU work encoded by one `GpuBuffer::extend` call: whether a
grow happened, the grow-copy byte count, and the staging buffer's contents,
padded size and copy region. -/
structure ExtendWork where
  grew : Bool
  growCopySize : ℕ
  staging : List ℚ
  stagingSize : ℕ
  dstOffset : ℕ
  copySize : ℕ

/-- The tail of `GpuBuffer::extend` shared by the grow and no-grow paths:
allocate a `pad_size extra_size`-byte staging buffer, fill it with
`newData` (a panic unless `sz ∣ pad_size extra_size` and
`delta ≤ pad_size extra_size / sz`), and encode the staging copy into the
buffer at offset `size` (a wgpu validation failure unless size and offset
are `COPY_BUFFER_ALIGNMENT`-aligned and the region fits in the
destination).  Finally `self.length += length`, in wrapping usize
arithmetic. -/
def stagingCopy (sz : ℕ) (b : GpuBuffer) (delta : ℕ) (newData : List ℚ)
    (grew : Bool) (growCopy : ℕ) : Option (GpuBuffer × ExtendWork) :=
  let extra_size := (delta * sz) % U64
  if newData.length = delta ∧ sz ∣ pad_size extra_size ∧ delta ≤ pad_size extra_size / sz
      ∧ COPY_BUFFER_ALIGNMENT ∣ extra_size ∧ COPY_BUFFER_ALIGNMENT ∣ b.size sz
      ∧ b.size sz + extra_size ≤ b.capacity then
    some ({ length := (b.length + delta) % U64, capacity := b.capacity,
            data := b.data ++ newData },
          { grew := grew, growCopySize := growCopy, staging := newData,
            stagingSize := pad_size extra_size, dstOffset := b.size sz,
            copySize := extra_size })
  else none

/-- Method `GpuBuffer::extend`: grow when `required_size > capacity`, then encode
the staging copy.  All sizes are u64-wrapping, as in the source. -/
def GpuBuffer.extend (self : GpuBuffer) (sz delta : ℕ) (newData : List ℚ) :
    Option (GpuBuffer × ExtendWork) :=
  let extra_size := (delta * sz) % U64
  let required_size := (self.size sz + extra_size) % U64
  if required_size > self.capacity then
    match self.grow sz required_size with
    | some (b, copied) => stagingCopy sz b delta newData true copied
    | none => none
  else
    stagingCopy sz self delta newData false 0

/-- A finite sequence of `extend` calls, each with a length delta and the
data its fill closure writes. -/
def extendSeq (sz : ℕ) (self : GpuBuffer) : List (ℕ × List ℚ) → Option GpuBuffer
  | [] => some self
  | d :: ds =>
    match self.extend sz d.1 d.2 with
    | some (b, _) => extendSeq sz b ds
    | none => none

/-- The `GpuBuffer` data invariant: the capacity is alignment-padded (a
fixed point of `pad_size`) and holds at least `length * sz` bytes. -/
def BufInv (sz : ℕ) (b : GpuBuffer) : Prop :=
  pad_size b.capacity = b.capacity ∧ b.length * sz ≤ b.capacity

theorem BufInv.capacity_lt {sz : ℕ} {b : GpuBuffer} (hinv : BufInv sz b) :
    b.capacity < 2 ^ 64 := by
  have h := pad_size_le b.capacity
  have := hinv.1
  omega

theorem new_inv (sz : ℕ) (hsz : 0 < sz) (cs cd : Bool) (n : ℕ) (xs : List ℚ)
    (b : GpuBuffer) (h : GpuBuffer.new sz cs cd n xs = some b) :
    BufInv sz b ∧ b.length = n := by
  simp only [GpuBuffer.new] at h
  split at h
  · split at h
    · rename_i hcond
      injection h with h'
      subst h'
      exact ⟨⟨pad_size_idem _, (Nat.le_div_iff_mul_le hsz).mp hcond.2.2⟩, rfl⟩
    · exact Option.noConfusion h
  · exact Option.noConfusion h

theorem stagingCopy_step (sz : ℕ) (hsz : 0 < sz) (b : GpuBuffer) (delta : ℕ)
    (xs : List ℚ) (g : Bool) (c : ℕ) (b' : GpuBuffer) (w : ExtendWork)
    (hinv : BufInv sz b) (h : stagingCopy sz b delta xs g c = some (b', w)) :
    BufInv sz b' ∧ b'.length = b.length + delta ∧ b'.capacity = b.capacity := by
  obtain ⟨hpad, hlen⟩ := hinv
  have hcapbound := pad_size_le b.capacity
  have hcaplt : b.capacity < 2 ^ 64 := by omega
  have hsize : b.size sz = b.length * sz := by
    unfold GpuBuffer.size U64
    omega
  simp only [stagingCopy] at h
  split at h
  · rename_i hcond
    obtain ⟨-, -, hfit, -, -, hcopy⟩ := hcond
    have hextra_le : delta * sz ≤ pad_size ((delta * sz) % U64) :=
      (Nat.le_div_iff_mul_le hsz).mp hfit
    have hpadbound := pad_size_le ((delta * sz) % U64)
    have hextra : (delta * sz) % U64 = delta * sz := by
      unfold U64
      omega
    rw [hsize, hextra] at hcopy
    have hmul : (b.length + delta) * sz ≤ b.capacity := by
      rw [Nat.add_mul]
      exact hcopy
    have hlendelta : (b.length + delta) % U64 = b.length + delta := by
      have h1 : b.length + delta ≤ (b.length + delta) * sz :=
        Nat.le_mul_of_pos_right _ hsz
      unfold U64
      exact Nat.mod_eq_of_lt (by omega)
    injection h with h'
    injection h' with hb hw
    subst hb
    refine ⟨⟨hpad, ?_⟩, ?_, rfl⟩
    · show (b.length + delta) % U64 * sz ≤ b.capacity
      rw [hlendelta]
      exact hmul
    · show (b.length + delta) % U64 = b.length + delta
      exact hlendelta
  · exact Option.noConfusion h

theorem grow_step (sz : ℕ) (b : GpuBuffer) (required_size : ℕ) (b2 : GpuBuffer) (c : ℕ)
    (hinv : BufInv sz b) (h : b.grow sz required_size = some (b2, c)) :
    BufInv sz b2 ∧ b2.length = b.length ∧ b.capacity < b2.capacity := by
  obtain ⟨hpad, hlen⟩ := hinv
  simp only [GpuBuffer.grow] at h
  split at h
  · rename_i hcond
    obtain ⟨-, hmono, -, -, -⟩ := hcond
    injection h with h'
    injection h' with hb hc
    subst hb
    exact ⟨⟨pad_size_idem _, le_trans hlen (le_of_lt hmono)⟩, rfl, hmono⟩
  · exact Option.noConfusion h

theorem extend_step (sz : ℕ) (hsz : 0 < sz) (b : GpuBuffer) (delta : ℕ) (xs : List ℚ)
    (b' : GpuBuffer) (w : ExtendWork) (hinv : BufInv sz b)
    (h : b.extend sz delta xs = some (b', w)) :
    BufInv sz b' ∧ b'.length = b.length + delta := by
  simp only [GpuBuffer.extend] at h
  split at h
  · rename_i hgrow
    cases hg : b.grow sz ((b.size sz + (delta * sz) % U64) % U64) with
    | none => rw [hg] at h; exact Option.noConfusion h
    | some bc =>
      rw [hg] at h
      obtain ⟨b2, c⟩ := bc
      obtain ⟨hinv2, hlen2, -⟩ := grow_step sz b _ b2 c ⟨hinv.1, hinv.2⟩ hg
      obtain ⟨hinv', hlen', -⟩ := stagingCopy_step sz hsz b2 delta xs true c b' w hinv2 h
      exact ⟨hinv', by rw [hlen', hlen2]⟩
  · obtain ⟨hinv', hlen', -⟩ := stagingCopy_step sz hsz b delta xs false 0 b' w hinv h
    exact ⟨hinv', hlen'⟩

theorem extendSeq_inv (sz : ℕ) (hsz : 0 < sz) (ds : List (ℕ × List ℚ))
    (b bf : GpuBuffer) (hinv : BufInv sz b) (h : extendSeq sz b ds = some bf) :
    BufInv sz bf ∧ bf.length = b.length + (ds.map Prod.fst).sum := by
  induction ds generalizing b with
  | nil =>
    injection h with h'
    subst h'
    simpa using hinv
  | cons d ds ih =>
    simp only [extendSeq] at h
    cases hx : b.extend sz d.1 d.2 with
    | none => rw [hx] at h; exact Option.noConfusion h
    | some bw =>
      rw [hx] at h
      obtain ⟨b1, w⟩ := bw
      obtain ⟨hinv1, hlen1⟩ := extend_step sz hsz b d.1 d.2 b1 w hinv hx
      obtain ⟨hinvf, hlenf⟩ := ih b1 hinv1 h
      refine ⟨hinvf, ?_⟩
      rw [hlenf, hlen1]
      simp [Nat.add_assoc]

theorem stagingCopy_work (sz : ℕ) (b : GpuBuffer) (delta : ℕ) (xs : List ℚ)
    (g : Bool) (c : ℕ) (b' : GpuBuffer) (w : ExtendWork)
    (h : stagingCopy sz b delta xs g c = some (b', w)) :
    b'.capacity = b.capacity ∧ w.grew = g := by
  simp only [stagingCopy] at h
  split at h
  · injection h with h'
    injection h' with hb hw
    subst hb
    subst hw
    exact ⟨rfl, rfl⟩
  · exact Option.noConfusion h

theorem extend_capacity_mono (sz : ℕ) (b : GpuBuffer) (delta : ℕ) (xs : List ℚ)
    (b' : GpuBuffer) (w : ExtendWork) (h : b.extend sz delta xs = some (b', w)) :
    b.capacity ≤ b'.capacity ∧ (w.grew = true → b.capacity < b'.capacity) := by
  simp only [GpuBuffer.extend] at h
  split at h
  · cases hg : b.grow sz ((b.size sz + (delta * sz) % U64) % U64) with
    | none => rw [hg] at h; exact Option.noConfusion h
    | some bc =>
      rw [hg] at h
      obtain ⟨b2, c⟩ := bc
      have hmono : b.capacity < b2.capacity := by
        simp only [GpuBuffer.grow] at hg
        split at hg
        · rename_i hcond
          injection hg with hg'
          injection hg' with hb hc
          subst hb
          exact hcond.2.1
        · exact Option.noConfusion hg
      obtain ⟨hcap, -⟩ := stagingCopy_work sz b2 delta xs true c b' w h
      rw [hcap]
      exact ⟨le_of_lt hmono, fun _ => hmono⟩
  · obtain ⟨hcap, hg⟩ := stagingCopy_work sz b delta xs false 0 b' w h
    rw [hcap, hg]
    exact ⟨le_refl _, fun hx => Bool.noConfusion hx⟩

/-- C6: for every `GpuBuffer` created by `new` with initial length `n0` and
every finite sequence of `extend` calls with length deltas `d1..dk` that
complete without a fatal failure, the final length is `n0 + d1 + ... + dk`;
the capacity is always alignment-padded (a `pad_size` fixed point, hence a
multiple of `COPY_BUFFER_ALIGNMENT`) and at least `length * sz` bytes; and
every `extend` call leaves the capacity no smaller, strictly larger
whenever it performed a grow step. -/
theorem gpu_buffer_length_capacity_invariants
    (sz : ℕ) (hsz : 0 < sz) (cs cd : Bool) (n0 : ℕ) (initData : List ℚ)
    (st0 : GpuBuffer) (hnew : GpuBuffer.new sz cs cd n0 initData = some st0)
    (ds : List (ℕ × List ℚ)) (stf : GpuBuffer)
    (hrun : extendSeq sz st0 ds = some stf) :
    stf.length = n0 + (ds.map Prod.fst).sum
      ∧ pad_size stf.capacity = stf.capacity
      ∧ COPY_BUFFER_ALIGNMENT ∣ stf.capacity
      ∧ stf.length * sz ≤ stf.capacity
      ∧ ∀ (b b' : GpuBuffer) (d : ℕ) (xs : List ℚ) (w : ExtendWork),
          b.extend sz d xs = some (b', w) →
          b.capacity ≤ b'.capacity ∧ (w.grew = true → b.capacity < b'.capacity) := by
  obtain ⟨hinv0, hlen0⟩ := new_inv sz hsz cs cd n0 initData st0 hnew
  obtain ⟨⟨hpad, hcap⟩, hlen⟩ := extendSeq_inv sz hsz ds st0 stf hinv0 hrun
  refine ⟨by rw [hlen, hlen0], hpad, ?_, hcap, ?_⟩
  · rw [← hpad]
    exact pad_size_dvd _
  · intro b b' d xs w hx
    exact extend_capacity_mono sz b d xs b' w hx

/-- C6 witness: a concrete run with element size 4 (`f32`), initial length
1 and one `extend` of length 1, which triggers a grow step. -/
theorem gpu_buffer_length_capacity_invariants_witness :
    (0 : ℕ) < 4
      ∧ GpuBuffer.new 4 true true 1 [5] = some ⟨1, 4, [5]⟩
      ∧ extendSeq 4 ⟨1, 4, [5]⟩ [(1, [7])] = some ⟨2, 8, [5, 7]⟩
      ∧ ((⟨2, 8, [5, 7]⟩ : GpuBuffer).length = 1 + ([(1, [7])].map Prod.fst).sum
          ∧ pad_size (⟨2, 8, [5, 7]⟩ : GpuBuffer).capacity = (⟨2, 8, [5, 7]⟩ : GpuBuffer).capacity
          ∧ COPY_BUFFER_ALIGNMENT ∣ (⟨2, 8, [5, 7]⟩ : GpuBuffer).capacity
          ∧ (⟨2, 8, [5, 7]⟩ : GpuBuffer).length * 4 ≤ (⟨2, 8, [5, 7]⟩ : GpuBuffer).capacity
          ∧ ∀ (b b' : GpuBuffer) (d : ℕ) (xs : List ℚ) (w : ExtendWork),
              b.extend 4 d xs = some (b', w) →
              b.capacity ≤ b'.capacity ∧ (w.grew = true → b.capacity < b'.capacity)) :=
  ⟨by decide, by rfl, by rfl,
    gpu_buffer_length_capacity_invariants 4 (by decide) true true 1 [5] ⟨1, 4, [5]⟩ (by rfl)
      [(1, [7])] ⟨2, 8, [5, 7]⟩ (by rfl)⟩

/-- The interleaving performed by the fill closures of `Line::new` and
`Line::extend`: `buffer[i * 2] = xs[i]`, `buffer[i * 2 + 1] = ys[i]` for
each `i < xs.len()`, which covers every slot of the `2 * xs.len()`-element
view when the lengths are equal. -/
def interleave : List ℚ → List ℚ → List ℚ
  | x :: xs, y :: ys => x :: y :: interleave xs ys
  | _, _ => []

theorem interleave_length (xs ys : List ℚ) :
    (interleave xs ys).length = 2 * Min.min xs.length ys.length := by
  induction xs generalizing ys with
  | nil => simp [interleave]
  | cons x xs ih =>
    cases ys with
    | nil => simp [interleave]
    | cons y ys =>
      simp only [interleave, List.length_cons, ih]
      omega

/-- Type `Line` from `src/layer.rs`: one `GpuBuffer<f32>` of interleaved
`[x0, y0, x1, y1, ...]` values plus a thickness scalar. -/
structure Line where
  buffer : GpuBuffer
  thickness : ℚ

/-- Method `Line::new`: asserts `xs.len() == ys.len()` (fatal on mismatch), then
builds the buffer with usage `STORAGE | COPY_DST | COPY_SRC` (both copy
flags present), element count `2 * xs.len()` and the interleaving fill.
`size_of::<f32>() = 4`.  Thickness is 0.005. -/
def Line.new (xs ys : List ℚ) : Option Line :=
  if xs.length = ys.length then
    match GpuBuffer.new 4 true true (2 * xs.length) (interleave xs ys) with
    | some b => some { buffer := b, thickness := 1 / 200 }
    | none => none
  else none

/-- Method `Line::append`: a two-element extension writing `[x, y]`. -/
def Line.append (self : Line) (x y : ℚ) : Option (Line × ExtendWork) :=
  match self.buffer.extend 4 2 [x, y] with
  | some (b, w) => some ({ self with buffer := b }, w)
  | none => none

/-- Method `Line::extend`: asserts `xs.len() == ys.len()`, then extends the buffer
by `2 * xs.len()` elements with the interleaving fill. -/
def Line.extend (self : Line) (xs ys : List ℚ) : Option (Line × ExtendWork) :=
  if xs.length = ys.length then
    match self.buffer.extend 4 (2 * xs.length) (interleave xs ys) with
    | some (b, w) => some ({ self with buffer := b }, w)
    | none => none
  else none

/-- The vertex range of the draw call `LineRenderer::render` issues for one
line: `render_pass.draw(0..(line.buffer.len() * 2) as u32, 0..1)`.  The
usize product wraps at `2 ^ 64` and the `as u32` cast truncates to
`2 ^ 32`. -/
def LineRenderer.drawVertexCount (line : Line) : ℕ :=
  line.buffer.len * 2 % U64 % 2 ^ 32

/-- C10: `Line::append(x, y)` produces exactly the same resulting line
state and the same encoded copy work as `Line::extend(&[x], &[y])`: both
delegate to `GpuBuffer::extend` with length delta 2 and fill data
`[x, y]`. -/
theorem append_refines_extend (l : Line) (x y : ℚ) :
    l.append x y = l.extend [x] [y] := rfl

/-- C4 counterexample: the line built from `xs = [0, 1, 2]`,
`ys = [0, 1, 0]` stores 3 points (6 `f32` elements), and the draw call for
it covers 12 vertices, not `2 * point_count = 6` as claimed. -/
theorem draw_vertex_count_counterexample :
    (Line.new [0, 1, 2] [0, 1, 0]).map LineRenderer.drawVertexCount = some 12
      ∧ (12 : ℕ) ≠ 2 * 3 :=
  ⟨by rfl, by decide⟩

/-- C4 (amended): the draw call issued for a line covers
`(4 * point_count) mod 2 ^ 32` vertices — twice the buffer's `f32` element
count, i.e. four per data point, not two. -/
theorem draw_vertex_count_eq (xs ys : List ℚ) (l : Line)
    (h : Line.new xs ys = some l) :
    LineRenderer.drawVertexCount l = 4 * xs.length % 2 ^ 32 := by
  simp only [Line.new] at h
  split at h
  · cases hg : GpuBuffer.new 4 true true (2 * xs.length) (interleave xs ys) with
    | none => rw [hg] at h; exact Option.noConfusion h
    | some b =>
      rw [hg] at h
      injection h with h'
      subst h'
      have hb := new_inv 4 (by norm_num) true true (2 * xs.length) (interleave xs ys) b hg
      show b.len * 2 % U64 % 2 ^ 32 = 4 * xs.length % 2 ^ 32
      unfold GpuBuffer.len U64
      rw [hb.2]
      omega
  · exact Option.noConfusion h

/-- The concrete line of the spec's end-to-end scenario:
`xs = [0, 1, 2]`, `ys = [0, 1, 0]` interleave to `[0, 0, 1, 1, 2, 0]`. -/
def exampleLine : Line :=
  { buffer := { length := 6, capacity := 24, data := [0, 0, 1, 1, 2, 0] },
    thickness := 1 / 200 }

/-- C4 witness: the amended vertex count evaluated on the 3-point line. -/
theorem draw_vertex_count_eq_witness :
    Line.new [0, 1, 2] [0, 1, 0] = some exampleLine
      ∧ LineRenderer.drawVertexCount exampleLine = 4 * 3 % 2 ^ 32 :=
  ⟨by rfl, draw_vertex_count_eq [0, 1, 2] [0, 1, 0] exampleLine (by rfl)⟩

/-- Type `Interval` from `src/layout.rs`; `f64` endpoints modelled as `ℚ`. -/
@[ext]
structure Interval where
  min : ℚ
  max : ℚ

/-- Constant `Interval::UNIT = [0, 1]`. -/
def Interval.UNIT : Interval := { min := 0, max := 1 }

/-- Method `Interval::size`. -/
def Interval.size (self : Interval) : ℚ := self.max - self.min

/-- Method `Interval::clamp`: per-endpoint intersection with `other`. -/
def Interval.clamp (self other : Interval) : Interval :=
  { min := Max.max self.min other.min, max := Min.min self.max other.max }

/-- Method `Interval::bound`, translated branch for branch from the source —
including the `self.max + shift` and `self.min - shift` arithmetic of the
two shift branches. -/
def Interval.bound (self other : Interval) : Interval :=
  if other.size > self.size then
    self
  else if other.min < self.min then
    let shift := self.min - other.min
    { min := self.min, max := self.max + shift }
  else if other.max > self.max then
    let shift := other.max - self.max
    { min := self.min - shift, max := self.max }
  else
    { min := other.min, max := other.max }

/-- Rust `impl Add<f64> for Interval`: shift both endpoints by a scalar. -/
def Interval.add (self : Interval) (other : ℚ) : Interval :=
  { min := self.min + other, max := self.max + other }

instance : HAdd Interval ℚ Interval := ⟨Interval.add⟩

theorem Interval.add_def (i : Interval) (c : ℚ) :
    i + c = { min := i.min + c, max := i.max + c } := rfl

/-- Type `Bounds` from `src/layout.rs`. -/
@[ext]
structure Bounds where
  x : Interval
  y : Interval

/-- Constant `Bounds::UNIT`. -/
def Bounds.UNIT : Bounds := { x := Interval.UNIT, y := Interval.UNIT }

/-- Method `Bounds::clamp`: componentwise `Interval::clamp`. -/
def Bounds.clamp (self other : Bounds) : Bounds :=
  { x := self.x.clamp other.x, y := self.y.clamp other.y }

/-- Method `Bounds::bound`: componentwise `Interval::bound`. -/
def Bounds.bound (self other : Bounds) : Bounds :=
  { x := self.x.bound other.x, y := self.y.bound other.y }

/-- Type `Padding` from `src/layout.rs`. -/
structure Padding where
  top : ℚ
  bottom : ℚ
  left : ℚ
  right : ℚ

/-- Type `PlotInstanceLayout` from `src/layout.rs`. -/
structure PlotInstanceLayout where
  logical_width : ℚ
  logical_height : ℚ
  padding : Padding
  data_bounds : Bounds
  interaction_bounds : Bounds
  scale_factor : ℚ

/-- Method `PlotInstanceLayout::is_on_inner`.  Note: the last comparison checks
`y` against `logical_width - padding.bottom`, exactly as the source
does. -/
def PlotInstanceLayout.is_on_inner (self : PlotInstanceLayout) (mouse_position : ℚ × ℚ) : Prop :=
  mouse_position.1 / self.scale_factor ≥ self.padding.left
    ∧ mouse_position.1 / self.scale_factor ≤ self.logical_width - self.padding.right
    ∧ mouse_position.2 / self.scale_factor ≥ self.padding.top
    ∧ mouse_position.2 / self.scale_factor ≤ self.logical_width - self.padding.bottom

instance (l : PlotInstanceLayout) (p : ℚ × ℚ) : Decidable (l.is_on_inner p) := by
  unfold PlotInstanceLayout.is_on_inner
  infer_instance

/-- Method `PlotInstanceLayout::inner_width`. -/
def PlotInstanceLayout.inner_width (self : PlotInstanceLayout) : ℚ :=
  self.logical_width - self.padding.left - self.padding.right

/-- Method `PlotInstanceLayout::inner_height`. -/
def PlotInstanceLayout.inner_height (self : PlotInstanceLayout) : ℚ :=
  self.logical_height - self.padding.top - self.padding.bottom

/-- Method `PlotInstanceLayout::convert_to_data_position`.  (In `ℚ`, division by
a zero inner size yields 0 where `f64` would produce an infinity or NaN;
the claims settled against this model do not depend on that corner.) -/
def PlotInstanceLayout.convert_to_data_position (self : PlotInstanceLayout)
    (mouse_position : ℚ × ℚ) : Option (ℚ × ℚ) :=
  let logical_position := (mouse_position.1 / self.scale_factor,
    self.logical_height - mouse_position.2 / self.scale_factor)
  let logical_plot_position := (logical_position.1 - self.padding.left,
    logical_position.2 - self.padding.bottom)
  let percentage_plot_position := (logical_plot_position.1 / self.inner_width,
    logical_plot_position.2 / self.inner_height)
  if percentage_plot_position.1 ≥ 0 ∧ percentage_plot_position.1 ≤ 1
      ∧ percentage_plot_position.2 ≥ 0 ∧ percentage_plot_position.2 ≤ 1 then
    some (self.data_bounds.x.min + percentage_plot_position.1 * self.data_bounds.x.size,
      self.data_bounds.y.min + percentage_plot_position.2 * self.data_bounds.y.size)
  else none

/-- Method `PlotInstanceLayout::drag`.  Returns the updated layout (the source
mutates in place). -/
def PlotInstanceLayout.drag (self : PlotInstanceLayout)
    (start_drag_mouse_position pre_position current_position : ℚ × ℚ) :
    PlotInstanceLayout :=
  if ¬ self.is_on_inner start_drag_mouse_position
      ∨ ¬ self.is_on_inner pre_position
      ∨ ¬ self.is_on_inner current_position then
    self
  else
    let change := (current_position.1 - pre_position.1, current_position.2 - pre_position.2)
    let data_x := change.1 * self.data_bounds.x.size / (self.scale_factor * self.inner_width)
    let data_y := change.2 * self.data_bounds.y.size / (self.scale_factor * self.inner_height)
    let data_bounds : Bounds := { x := self.data_bounds.x + data_x, y := self.data_bounds.y + data_y }
    { self with data_bounds := self.interaction_bounds.clamp data_bounds }

/-- Method `PlotInstanceLayout::zoom`.  Returns the updated layout. -/
def PlotInstanceLayout.zoom (self : PlotInstanceLayout) (mouse_position : ℚ × ℚ)
    (factor : ℚ) : PlotInstanceLayout :=
  match self.convert_to_data_position mouse_position with
  | some data_position =>
    let new_bounds : Bounds :=
      { x := { min := data_position.1 - (data_position.1 - self.data_bounds.x.min) * factor,
               max := data_position.1 + (self.data_bounds.x.max - data_position.1) * factor },
        y := { min := data_position.2 - (data_position.2 - self.data_bounds.y.min) * factor,
               max := data_position.2 + (self.data_bounds.y.max - data_position.2) * factor } }
    { self with data_bounds := self.interaction_bounds.bound new_bounds }
  | none => self

theorem Interval.bound_inside (s o : Interval) (h1 : s.min ≤ o.min) (h2 : o.max ≤ s.max) :
    s.bound o = o := by
  have hsz : ¬ (o.size > s.size) := by
    unfold Interval.size
    push_neg
    linarith
  unfold Interval.bound
  rw [if_neg hsz, if_neg (not_lt.mpr h1), if_neg (not_lt.mpr h2)]

theorem Interval.clamp_inside (s o : Interval) (h1 : s.min ≤ o.min) (h2 : o.max ≤ s.max) :
    s.clamp o = o := by
  unfold Interval.clamp
  rw [max_eq_right h1, min_eq_right h2]

theorem Interval.add_zero_right (i : Interval) : i + (0 : ℚ) = i := by
  show ({ min := i.min + 0, max := i.max + 0 } : Interval) = i
  rw [add_zero, add_zero]

/-- C2: in the partially-outside branch the source does **not** shift
`other` while preserving its size.  For `self = [0, 1]` and
`other = [-1/2, 1/4]` (size 3/4, not larger than `self`'s size 1,
violating only the lower boundary) the code returns `[0, 3/2]`: a result
whose size (3/2) differs from `other`'s size (3/4) and whose upper
endpoint even exceeds `self.max`. -/
theorem bound_shift_changes_size :
    Interval.bound { min := 0, max := 1 } { min := -(1/2), max := 1/4 }
        = { min := 0, max := 3/2 }
      ∧ Interval.size { min := (0 : ℚ), max := 3/2 }
          ≠ Interval.size { min := -(1/2 : ℚ), max := 1/4 }
      ∧ (1 : ℚ) < (3/2 : ℚ) := by
  refine ⟨?_, ?_, by norm_num⟩
  · unfold Interval.bound
    rw [if_neg (by unfold Interval.size; norm_num),
      if_pos (show (-(1/2 : ℚ)) < 0 by norm_num)]
    ext <;> norm_num
  · unfold Interval.size
    norm_num

/-- C3 counterexample: in the spec's end-to-end scenario the `y` interval
`[1/10, 9/10]` has size 4/5 ≤ 1 and lies fully inside `Interval::UNIT`,
so `Bounds::UNIT.bound` returns it unchanged — not `Interval::UNIT` as the
claim says. -/
theorem unit_bound_y_not_unit :
    (Bounds.UNIT.bound
        { x := { min := 1/5, max := 3/10 }, y := { min := 1/10, max := 9/10 } }).y
      ≠ Interval.UNIT := by
  show Interval.UNIT.bound { min := 1/10, max := 9/10 } ≠ Interval.UNIT
  rw [Interval.bound_inside _ _ (by unfold Interval.UNIT; norm_num)
    (by unfold Interval.UNIT; norm_num)]
  unfold Interval.UNIT
  simp only [ne_eq, Interval.mk.injEq, not_and]
  intro h
  norm_num at h

/-- C3 (amended): `Bounds::UNIT.bound` of `{x: [1/5, 3/10], y: [1/10,
9/10]}` returns both intervals unchanged — `x` is smaller and inside, and
`y` is also smaller (size 4/5 ≤ 1) and inside, so neither is snapped to
`Interval::UNIT`. -/
theorem unit_bound_example_eval :
    Bounds.UNIT.bound
        { x := { min := 1/5, max := 3/10 }, y := { min := 1/10, max := 9/10 } }
      = { x := { min := 1/5, max := 3/10 }, y := { min := 1/10, max := 9/10 } } := by
  unfold Bounds.bound Bounds.UNIT
  rw [Interval.bound_inside _ _ (by unfold Interval.UNIT; norm_num)
      (by unfold Interval.UNIT; norm_num),
    Interval.bound_inside _ _ (by unfold Interval.UNIT; norm_num)
      (by unfold Interval.UNIT; norm_num)]

/-- A concrete materialised layout: 800×600 logical size, padding
top/bottom 20, left 50, right 20, scale factor 1 (the library's default
`PlotLayout` dimensions). -/
def exampleLayout : PlotInstanceLayout :=
  { logical_width := 800, logical_height := 600,
    padding := { top := 20, bottom := 20, left := 50, right := 20 },
    data_bounds := Bounds.UNIT, interaction_bounds := Bounds.UNIT,
    scale_factor := 1 }

/-- C5: `is_on_inner` compares the y coordinate against
`logical_width - padding.bottom` instead of
`logical_height - padding.bottom`.  At pixel `(100, 700)` on the example
800×600 layout the code answers `true`, although `700 / scale_factor`
lies below the padded plotting rectangle (`700 > 600 - 20`), so the
claimed equivalence fails. -/
theorem is_on_inner_checks_width_not_height :
    exampleLayout.is_on_inner (100, 700)
      ∧ ¬ ((700 : ℚ) / exampleLayout.scale_factor
            ≤ exampleLayout.logical_height - exampleLayout.padding.bottom) := by
  constructor
  · unfold PlotInstanceLayout.is_on_inner exampleLayout
    norm_num
  · unfold exampleLayout
    norm_num

/-- C8 (amended): zoom with factor 1 at any anchor leaves `data_bounds`
unchanged (exactly, in the real-arithmetic model), **provided**
`data_bounds` lies inside `interaction_bounds` on both axes — the
precondition forced by the counterexample, where the final
`interaction_bounds.bound` pass rewrites out-of-range bounds even though
the zoom arithmetic itself is the identity. -/
theorem zoom_factor_one_id (l : PlotInstanceLayout) (p : ℚ × ℚ)
    (hx1 : l.interaction_bounds.x.min ≤ l.data_bounds.x.min)
    (hx2 : l.data_bounds.x.max ≤ l.interaction_bounds.x.max)
    (hy1 : l.interaction_bounds.y.min ≤ l.data_bounds.y.min)
    (hy2 : l.data_bounds.y.max ≤ l.interaction_bounds.y.max)
    (_hvalid : (l.convert_to_data_position p).isSome) :
    (l.zoom p 1).data_bounds = l.data_bounds := by
  unfold PlotInstanceLayout.zoom
  cases hc : l.convert_to_data_position p with
  | none => rfl
  | some d =>
    show l.interaction_bounds.bound
        { x := { min := d.1 - (d.1 - l.data_bounds.x.min) * 1,
                 max := d.1 + (l.data_bounds.x.max - d.1) * 1 },
          y := { min := d.2 - (d.2 - l.data_bounds.y.min) * 1,
                 max := d.2 + (l.data_bounds.y.max - d.2) * 1 } } = l.data_bounds
    have e1 : d.1 - (d.1 - l.data_bounds.x.min) * 1 = l.data_bounds.x.min := by ring
    have e2 : d.1 + (l.data_bounds.x.max - d.1) * 1 = l.data_bounds.x.max := by ring
    have e3 : d.2 - (d.2 - l.data_bounds.y.min) * 1 = l.data_bounds.y.min := by ring
    have e4 : d.2 + (l.data_bounds.y.max - d.2) * 1 = l.data_bounds.y.max := by ring
    rw [e1, e2, e3, e4]
    show Bounds.mk (l.interaction_bounds.x.bound l.data_bounds.x)
      (l.interaction_bounds.y.bound l.data_bounds.y) = l.data_bounds
    rw [Interval.bound_inside _ _ hx1 hx2, Interval.bound_inside _ _ hy1 hy2]

/-- A materialised layout whose bounds are all inside the interaction
ceiling: logical size 2×1, no padding, scale factor 1, unit data and
interaction bounds. -/
def insideLayout : PlotInstanceLayout :=
  { logical_width := 2, logical_height := 1,
    padding := { top := 0, bottom := 0, left := 0, right := 0 },
    data_bounds := Bounds.UNIT, interaction_bounds := Bounds.UNIT,
    scale_factor := 1 }

/-- C8 witness: the amended zoom identity at the concrete anchor
`(1, 1/2)` of `insideLayout`. -/
theorem zoom_factor_one_id_witness :
    insideLayout.interaction_bounds.x.min ≤ insideLayout.data_bounds.x.min
      ∧ insideLayout.data_bounds.x.max ≤ insideLayout.interaction_bounds.x.max
      ∧ insideLayout.interaction_bounds.y.min ≤ insideLayout.data_bounds.y.min
      ∧ insideLayout.data_bounds.y.max ≤ insideLayout.interaction_bounds.y.max
      ∧ (insideLayout.convert_to_data_position (1, 1/2)).isSome
      ∧ (insideLayout.zoom (1, 1/2) 1).data_bounds = insideLayout.data_bounds :=
  ⟨le_refl _, le_refl _, le_refl _, le_refl _,
    by
      unfold PlotInstanceLayout.convert_to_data_position insideLayout
        PlotInstanceLayout.inner_width PlotInstanceLayout.inner_height
      norm_num,
    zoom_factor_one_id insideLayout (1, 1/2) (le_refl _) (le_refl _) (le_refl _) (le_refl _)
      (by
        unfold PlotInstanceLayout.convert_to_data_position insideLayout
          PlotInstanceLayout.inner_width PlotInstanceLayout.inner_height
        norm_num)⟩

/-- A layout whose `data_bounds` x-interval `[0, 2]` exceeds the unit
interaction ceiling. -/
def zoomOutsideLayout : PlotInstanceLayout :=
  { insideLayout with
      data_bounds := { x := { min := 0, max := 2 }, y := Interval.UNIT } }

/-- C8 counterexample: on `zoomOutsideLayout` the anchor `(1, 1/2)` maps
to a valid data position, yet zooming with factor 1 snaps the oversized
`x` interval `[0, 2]` to the interaction ceiling `[0, 1]`: `data_bounds`
is *not* left unchanged, so the claim fails without the containment
precondition. -/
theorem zoom_one_changes_out_of_bounds :
    (zoomOutsideLayout.convert_to_data_position (1, 1/2)).isSome
      ∧ (zoomOutsideLayout.zoom (1, 1/2) 1).data_bounds ≠ zoomOutsideLayout.data_bounds := by
  have hc2 : zoomOutsideLayout.convert_to_data_position (1, 1/2) = some (1, 1/2) := by
    unfold PlotInstanceLayout.convert_to_data_position zoomOutsideLayout insideLayout
      PlotInstanceLayout.inner_width PlotInstanceLayout.inner_height Interval.size
      Interval.UNIT
    norm_num
  constructor
  · rw [hc2]
    rfl
  · unfold PlotInstanceLayout.zoom
    rw [hc2]
    norm_num [zoomOutsideLayout, insideLayout, Bounds.bound, Interval.bound, Interval.size,
      Bounds.UNIT, Interval.UNIT, Bounds.mk.injEq, Interval.mk.injEq]

/-- C9 (amended): a drag whose start, previous and current positions
coincide leaves `data_bounds` unchanged, **provided** `data_bounds` lies
inside `interaction_bounds` on both axes — the precondition forced by the
counterexample, where the final `interaction_bounds.clamp` pass trims
out-of-range bounds even though the pan delta is zero. -/
theorem drag_same_position_id (l : PlotInstanceLayout) (p : ℚ × ℚ)
    (hx1 : l.interaction_bounds.x.min ≤ l.data_bounds.x.min)
    (hx2 : l.data_bounds.x.max ≤ l.interaction_bounds.x.max)
    (hy1 : l.interaction_bounds.y.min ≤ l.data_bounds.y.min)
    (hy2 : l.data_bounds.y.max ≤ l.interaction_bounds.y.max) :
    (l.drag p p p).data_bounds = l.data_bounds := by
  unfold PlotInstanceLayout.drag
  split
  · rfl
  · show l.interaction_bounds.clamp
        { x := l.data_bounds.x
            + (p.1 - p.1) * l.data_bounds.x.size / (l.scale_factor * l.inner_width),
          y := l.data_bounds.y
            + (p.2 - p.2) * l.data_bounds.y.size / (l.scale_factor * l.inner_height) }
        = l.data_bounds
    have e1 : (p.1 - p.1) * l.data_bounds.x.size / (l.scale_factor * l.inner_width) = 0 := by
      rw [sub_self, zero_mul, zero_div]
    have e2 : (p.2 - p.2) * l.data_bounds.y.size / (l.scale_factor * l.inner_height) = 0 := by
      rw [sub_self, zero_mul, zero_div]
    rw [e1, e2, Interval.add_zero_right, Interval.add_zero_right]
    show Bounds.mk (l.interaction_bounds.x.clamp l.data_bounds.x)
      (l.interaction_bounds.y.clamp l.data_bounds.y) = l.data_bounds
    rw [Interval.clamp_inside _ _ hx1 hx2, Interval.clamp_inside _ _ hy1 hy2]

/-- C9 witness: the amended drag identity at the concrete position
`(1, 1/2)` of `insideLayout`. -/
theorem drag_same_position_id_witness :
    insideLayout.interaction_bounds.x.min ≤ insideLayout.data_bounds.x.min
      ∧ insideLayout.data_bounds.x.max ≤ insideLayout.interaction_bounds.x.max
      ∧ insideLayout.interaction_bounds.y.min ≤ insideLayout.data_bounds.y.min
      ∧ insideLayout.data_bounds.y.max ≤ insideLayout.interaction_bounds.y.max
      ∧ (insideLayout.drag (1, 1/2) (1, 1/2) (1, 1/2)).data_bounds
          = insideLayout.data_bounds :=
  ⟨le_refl _, le_refl _, le_refl _, le_refl _,
    drag_same_position_id insideLayout (1, 1/2) (le_refl _) (le_refl _) (le_refl _) (le_refl _)⟩

/-- A layout whose `data_bounds` x-interval `[-1, 1/2]` pokes out of the
unit interaction ceiling on the left. -/
def dragOutsideLayout : PlotInstanceLayout :=
  { insideLayout with
      data_bounds := { x := { min := -1, max := 1/2 }, y := Interval.UNIT } }

/-- C9 counterexample: on `dragOutsideLayout` the position `(1, 1/2)` is
on the inner rectangle, yet a drag with identical start, previous and
current positions clamps the out-of-range `x` interval `[-1, 1/2]` to
`[0, 1/2]`: `data_bounds` is *not* left unchanged, so the claim fails
without the containment precondition. -/
theorem drag_same_changes_out_of_bounds :
    (dragOutsideLayout.drag (1, 1/2) (1, 1/2) (1, 1/2)).data_bounds
      ≠ dragOutsideLayout.data_bounds := by
  have honn : dragOutsideLayout.is_on_inner (1, 1/2) := by
    unfold PlotInstanceLayout.is_on_inner dragOutsideLayout insideLayout
    norm_num
  unfold PlotInstanceLayout.drag
  rw [if_neg (by push_neg; exact ⟨honn, honn, honn⟩)]
  norm_num [dragOutsideLayout, insideLayout, Bounds.clamp, Interval.clamp, Interval.add_def,
    Interval.size, Bounds.UNIT, Interval.UNIT, max_def, min_def,
    Bounds.mk.injEq, Interval.mk.injEq]

end Ortelius
